import Mathlib

/-!
Formal model of the casemk storage-case generator.

The Python source (src/casemk/config.py, src/casemk/layout.py,
src/casemk/geometry.py) is embedded shallowly: floats become `ℚ`,
Python's `int(x)` truncation becomes integer division of numerator by
denominator, raised `ValueError`s become `Except.error`, and the
mutable packing loop becomes explicit state passing.
-/

deriving instance DecidableEq for Except

namespace Casemk

/-- Configuration record, mirroring `Config` in src/casemk/config.py
(defaults included). -/
structure Config where
  max_footprint : ℚ × ℚ := (350, 300)
  case_size : Option (ℚ × ℚ) := none
  clearance : ℚ := 3/2
  wall_thickness : ℚ := 2
  divider_thickness : ℚ := 3/2
  base_height : ℚ := 2
  corner_radius : ℚ := 0
  stackable : Bool := false
  stack_lip_inner : ℚ := 2
  stack_lip_height : ℚ := 2
  stack_clearance : ℚ := 3/10
  label_size : Option (ℚ × ℚ) := none
  label_dir : String := "X"
  label_text_size : ℚ := 4
  label_text_depth : ℚ := 1/2
deriving DecidableEq

/-- `Config.max_x` property: outer width (fixed case size overrides footprint). -/
def Config.max_x (c : Config) : ℚ :=
  match c.case_size with
  | some p => p.1
  | none => c.max_footprint.1

/-- `Config.max_y` property: outer length (fixed case size overrides footprint). -/
def Config.max_y (c : Config) : ℚ :=
  match c.case_size with
  | some p => p.2
  | none => c.max_footprint.2

/-- One validation check: `raise ValueError(msg)` when `p` holds, else pass. -/
def vcheck (p : Prop) [Decidable p] (msg : String) : Except String Unit :=
  if p then .error (msg) else .ok ()

/-- `Config.validate` from src/casemk/config.py: the checks run in source
order and the first failing one raises; each `raise ValueError` becomes
`Except.error` of the same message. -/
def Config.validateE (c : Config) : Except String Unit :=
  vcheck (c.max_footprint.1 ≤ 0 ∨ c.max_footprint.2 ≤ 0)
    ("max_footprint must have positive dimensions") >>= fun _ =>
  vcheck (c.case_size.isSome ∧
      ((c.case_size.getD (1, 1)).1 ≤ 0 ∨ (c.case_size.getD (1, 1)).2 ≤ 0))
    ("case_size must have positive dimensions") >>= fun _ =>
  vcheck (c.case_size.isSome ∧
      ((c.case_size.getD (1, 1)).1 - 2 * c.wall_thickness ≤ 0 ∨
       (c.case_size.getD (1, 1)).2 - 2 * c.wall_thickness ≤ 0))
    ("case_size too small for wall thickness (need room for slots)") >>= fun _ =>
  vcheck (c.clearance < 0) ("clearance must be non-negative") >>= fun _ =>
  vcheck (c.wall_thickness ≤ 0) ("wall_thickness must be positive") >>= fun _ =>
  vcheck (c.divider_thickness ≤ 0) ("divider_thickness must be positive") >>= fun _ =>
  vcheck (c.base_height ≤ 0) ("base_height must be positive") >>= fun _ =>
  vcheck (c.corner_radius < 0) ("corner_radius must be non-negative") >>= fun _ =>
  vcheck (c.stackable ∧ c.stack_lip_inner ≤ 0)
    ("stack_lip_inner must be positive when stackable") >>= fun _ =>
  vcheck (c.stackable ∧ c.stack_lip_height ≤ 0)
    ("stack_lip_height must be positive when stackable") >>= fun _ =>
  vcheck (c.stackable ∧ c.stack_clearance < 0)
    ("stack_clearance must be non-negative") >>= fun _ =>
  vcheck (c.label_size.isSome ∧
      ((c.label_size.getD (1, 1)).1 ≤ 0 ∨ (c.label_size.getD (1, 1)).2 ≤ 0))
    ("label_size must have positive dimensions") >>= fun _ =>
  vcheck (¬(c.label_dir = "X" ∨ c.label_dir = "Y")) ("label_dir must be X or Y") >>= fun _ =>
  vcheck (c.label_text_size ≤ 0) ("label_text_size must be positive") >>= fun _ =>
  vcheck (c.label_text_depth ≤ 0) ("label_text_depth must be positive")

/-- The disjunction of the validation conditions that are properties of the
`Config` value itself (everything `Config.validate` actually tests). -/
def configViolated (c : Config) : Prop :=
  c.max_footprint.1 ≤ 0 ∨ c.max_footprint.2 ≤ 0 ∨
  (c.case_size.isSome ∧ ((c.case_size.getD (1, 1)).1 ≤ 0 ∨ (c.case_size.getD (1, 1)).2 ≤ 0)) ∨
  (c.case_size.isSome ∧
    ((c.case_size.getD (1, 1)).1 - 2 * c.wall_thickness ≤ 0 ∨
     (c.case_size.getD (1, 1)).2 - 2 * c.wall_thickness ≤ 0)) ∨
  c.clearance < 0 ∨
  c.wall_thickness ≤ 0 ∨
  c.divider_thickness ≤ 0 ∨
  c.base_height ≤ 0 ∨
  c.corner_radius < 0 ∨
  (c.stackable ∧ c.stack_lip_inner ≤ 0) ∨
  (c.stackable ∧ c.stack_lip_height ≤ 0) ∨
  (c.stackable ∧ c.stack_clearance < 0) ∨
  (c.label_size.isSome ∧ ((c.label_size.getD (1, 1)).1 ≤ 0 ∨ (c.label_size.getD (1, 1)).2 ≤ 0)) ∨
  ¬(c.label_dir = "X" ∨ c.label_dir = "Y") ∨
  c.label_text_size ≤ 0 ∨
  c.label_text_depth ≤ 0

/-- Modelled from the spec: the claim's full list of configuration-error
conditions additionally includes "a missing label size when labels are
requested"; whether labels are requested is not part of the `Config` record
(it depends on the item specifications), so it enters as an extra flag. -/
def claimConfigViolated (labelsRequested : Bool) (c : Config) : Prop :=
  configViolated c ∨ (labelsRequested ∧ c.label_size = none)

/-- The default configuration (all fields defaulted). -/
def defaultConfig : Config := {}

/-- Python `int(q)` on a rational: truncation toward zero. -/
def pyInt (q : ℚ) : ℤ := if 0 ≤ q then ⌊q⌋ else -⌊-q⌋

/-- A single slot/cell, mirroring `SlotRect` in src/casemk/layout.py. -/
structure SlotRect where
  x : ℚ
  y : ℚ
  width : ℚ
  length : ℚ
  height : ℚ
  label_width : Option ℚ := none
  label_length : Option ℚ := none
  label_text : Option String := none
deriving DecidableEq

/-- Result record of `compute_grid_layout`. -/
structure GridLayoutResult where
  cols : ℕ
  rows : ℕ
  cell_width : ℚ
  cell_length : ℚ
  cell_height : ℚ
  slots : List SlotRect
  total_width : ℚ
  total_length : ℚ
deriving DecidableEq

/-- Result record of `compute_mixed_layout`. -/
structure MixedLayoutResult where
  slots : List SlotRect
  total_width : ℚ
  total_length : ℚ
deriving DecidableEq

/-- The `ValueError`s the layout engines can raise, by their data content:
`oversizeGrid` carries the requested item dimensions and the configured
footprint exactly as the grid engine's message interpolates them;
`oversizeMixed` carries the clearance-included cell dimensions and the
footprint as the mixed engine's message does; `doesNotFit` carries the
footprint. -/
inductive LayoutError where
  | oversizeGrid (w l h maxX maxY : ℚ)
  | oversizeMixed (cw cl maxX maxY : ℚ)
  | doesNotFit (maxX maxY : ℚ)
deriving DecidableEq

/-- Usable inner width: outer width minus two wall thicknesses, further
inset by `corner_radius + 1` per side (clamped at 0) when corners are
rounded — lines 70-77 of src/casemk/layout.py (the mixed engine repeats the
same computation at lines 178-184). -/
def innerX (c : Config) : ℚ :=
  let ix := c.max_x - 2 * c.wall_thickness
  if c.corner_radius > 0 then max 0 (ix - 2 * (c.corner_radius + 1)) else ix

/-- Usable inner length, computed like `innerX`. -/
def innerY (c : Config) : ℚ :=
  let iy := c.max_y - 2 * c.wall_thickness
  if c.corner_radius > 0 then max 0 (iy - 2 * (c.corner_radius + 1)) else iy

/-- `try_layout` inside `compute_grid_layout`: per-axis cell counts
`max(1, int((inner + divider) / (cell + divider)))`. -/
def tryLayout (ix iy d cw cl : ℚ) : ℕ × ℕ :=
  ((max 1 (pyInt ((ix + d) / (cw + d)))).toNat, (max 1 (pyInt ((iy + d) / (cl + d)))).toNat)

/-- Orientation selection of `compute_grid_layout` lines 91-102: try the
cell as-is and with width/length swapped, keep whichever gives more cells,
ties favouring as-is.  Returns (cols, rows, cell_width, cell_length). -/
def gridChoose (ix iy d cw cl : ℚ) : ℕ × ℕ × ℚ × ℚ :=
  let a := tryLayout ix iy d cw cl
  let b := tryLayout ix iy d cl cw
  if a.1 * a.2 ≥ b.1 * b.2 then (a.1, a.2, cw, cl) else (b.1, b.2, cl, cw)

/-- `cols_this_row` in the slot-building loop: a full row of `cols` unless
this is a short final row. -/
def colsThisRow (cols total row : ℕ) : ℕ :=
  if (row + 1) * cols ≤ total then cols else total - row * cols

/-- The slot built at grid position (row, col): pitch is cell size plus
divider thickness on both axes. -/
def gridSlotAt (cw cl ch d : ℚ) (row col : ℕ) : SlotRect :=
  { x := (col : ℚ) * (cw + d), y := (row : ℚ) * (cl + d),
    width := cw, length := cl, height := ch }

/-- The nested slot-building loop of `compute_grid_layout` lines 111-121:
row-major placement at pitch cell + divider. -/
def gridSlots (cols total : ℕ) (cw cl ch d : ℚ) (rows : ℕ) : List SlotRect :=
  (List.range rows).flatMap fun row : ℕ =>
    (List.range (colsThisRow cols total row)).map (gridSlotAt cw cl ch d row)

/-- `actual_cols`: running maximum of `cols_this_row` over the row loop. -/
def gridActualCols (cols total rows : ℕ) : ℕ :=
  (List.range rows).foldl (fun acc row => max acc (colsThisRow cols total row)) 0

/-- `max(f(s) for s in L)` with a default for the empty list — the
`if slots / else` extent computation at lines 123-131. -/
def listMaxBy (f : SlotRect → ℚ) (dflt : ℚ) (L : List SlotRect) : ℚ :=
  match L with
  | [] => dflt
  | s :: rest => rest.foldl (fun m t => max m (f t)) (f s)

/-- `compute_grid_layout` from src/casemk/layout.py.  `count` is the
optional exact slot count; the single `raise ValueError` becomes
`Except.error (.oversizeGrid ...)`. -/
def computeGridLayout (dims : ℚ × ℚ × ℚ) (c : Config) (count : Option ℕ) :
    Except LayoutError GridLayoutResult :=
  let cellW := dims.1 + c.clearance
  let cellL := dims.2.1 + c.clearance
  let cellH := dims.2.2 + c.clearance
  let ix := innerX c
  let iy := innerY c
  if cellW > ix ∨ cellL > iy then
    .error (.oversizeGrid dims.1 dims.2.1 dims.2.2 c.max_x c.max_y)
  else
    let ch := gridChoose ix iy c.divider_thickness cellW cellL
    let cols := ch.1
    let rows0 := ch.2.1
    let cw := ch.2.2.1
    let cl := ch.2.2.2
    let tc :=
      match count with
      | some n => min (cols * rows0) n
      | none => cols * rows0
    let rows :=
      match count with
      | some _ => (tc + cols - 1) / cols
      | none => rows0
    let slots := gridSlots cols tc cw cl cellH c.divider_thickness rows
    let actualCols := gridActualCols cols tc rows
    let tw := listMaxBy (fun t => t.x + t.width) cw slots
    let tl := listMaxBy (fun t => t.y + t.length) cl slots
    .ok { cols := actualCols, rows := rows, cell_width := cw, cell_length := cl,
          cell_height := cellH, slots := slots, total_width := tw, total_length := tl }

/-- One item specification for the mixed engine (the `dict` entries of
`compute_mixed_layout`, with Python's `.get` defaults made explicit). -/
structure MixedItem where
  width : ℚ
  length : ℚ
  height : ℚ
  count : ℕ := 1
  label : Option String := none
deriving DecidableEq

/-- One expanded cell entry `(cell_w, cell_l, cell_h, label_text)`. -/
structure Entry where
  cw : ℚ
  cl : ℚ
  ch : ℚ
  label : Option String
deriving DecidableEq

/-- A cell entry's footprint area `cell_w * cell_l`, the mixed engine's
sort key. -/
def entryArea (e : Entry) : ℚ := e.cw * e.cl

/-- The expansion loop of `compute_mixed_layout` lines 162-173: each item
becomes `count` identical clearance-padded cell entries, in input order. -/
def expandItems (items : List MixedItem) (c : Config) : List Entry :=
  items.flatMap fun it =>
    List.replicate it.count
      { cw := it.width + c.clearance, cl := it.length + c.clearance,
        ch := it.height + c.clearance, label := it.label }

/-- The descending-area comparison used by `expanded.sort(key=area,
reverse=True)`. -/
def entGE (a b : Entry) : Prop := entryArea b ≤ entryArea a

instance : DecidableRel entGE := fun a b => inferInstanceAs (Decidable (_ ≤ _))

instance : IsTotal Entry entGE := ⟨fun a b => (le_total (entryArea b) (entryArea a)).imp id id⟩

instance : IsTrans Entry entGE := ⟨fun _ _ _ hab hbc => le_trans hbc hab⟩

/-- Python's `list.sort(key=area, reverse=True)`: a stable sort by
descending area.  A stable descending sort is extensionally unique;
insertion sort with the non-strict descending comparison realises it
(an incoming earlier element is inserted before any equal-area element
already placed, preserving input order on ties). -/
def sortEntries (l : List Entry) : List Entry := l.insertionSort entGE

/-- Mutable state of the mixed packing loop (lines 187-192). -/
structure PackState where
  slots : List SlotRect
  row_y : ℚ
  row_height : ℚ
  row_x : ℚ
  max_x_used : ℚ
  max_y_used : ℚ
deriving DecidableEq

/-- `x_advance` for one entry (lines 198-208): slot plus divider, label
space included per label direction. -/
def entryXAdvance (d lw : ℚ) (dirX hasLabel : Bool) (cw : ℚ) : ℚ :=
  if hasLabel && dirX then cw + d + lw + d
  else if hasLabel then max cw lw + d
  else cw + d

/-- `effective_cl` for one entry (lines 198-208): row-height contribution,
label space included per label direction. -/
def entryEffLen (d ll : ℚ) (dirX hasLabel : Bool) (cl : ℚ) : ℚ :=
  if hasLabel && dirX then max cl ll
  else if hasLabel then cl + d + ll
  else cl

/-- `label_w if has_label else None` (and likewise for the length). -/
def optIf (b : Bool) (v : ℚ) : Option ℚ := if b then some v else none

/-- The extra divider width subtracted from `slot_right` for a
right-direction label ("label area, no divider after it", lines 230-231 and
251-252). -/
def labelDividerAdjust (d : ℚ) (dirX hasLabel : Bool) : ℚ :=
  if hasLabel && dirX then d else 0

/-- One iteration of the mixed packing loop (lines 194-254): oversize
check, then place in the current row or open a new row (failing if the new
row no longer fits vertically); tracks the running maxima exactly as the
source does, including the extra divider subtracted for right-direction
labels. -/
def packStep (c : Config) (lw ll : ℚ) (dirX : Bool) (ix iy : ℚ)
    (st : PackState) (e : Entry) : Except LayoutError PackState :=
  let hasLabel := e.label.isSome
  let slw := optIf hasLabel lw
  let sll := optIf hasLabel ll
  let xAdv := entryXAdvance c.divider_thickness lw dirX hasLabel e.cw
  let effCl := entryEffLen c.divider_thickness ll dirX hasLabel e.cl
  let xExt := xAdv - c.divider_thickness
  if xExt > ix ∨ effCl > iy then .error (.oversizeMixed e.cw e.cl c.max_x c.max_y)
  else if st.row_x + xAdv ≤ ix + c.divider_thickness ∧ effCl ≤ iy - st.row_y then
    let s : SlotRect :=
      { x := st.row_x, y := st.row_y, width := e.cw, length := e.cl, height := e.ch,
        label_width := slw, label_length := sll, label_text := e.label }
    let rowX := st.row_x + xAdv
    let rowH := max st.row_height effCl
    let slotRight := rowX - c.divider_thickness - labelDividerAdjust c.divider_thickness dirX hasLabel
    .ok { slots := st.slots ++ [s], row_y := st.row_y, row_height := rowH, row_x := rowX,
          max_x_used := max st.max_x_used slotRight,
          max_y_used := max st.max_y_used (st.row_y + rowH) }
  else
    let rowY := st.row_y + st.row_height + c.divider_thickness
    if rowY + effCl > iy then .error (.doesNotFit c.max_x c.max_y)
    else
      let s : SlotRect :=
        { x := 0, y := rowY, width := e.cw, length := e.cl, height := e.ch,
          label_width := slw, label_length := sll, label_text := e.label }
      let slotRight := xAdv - c.divider_thickness - labelDividerAdjust c.divider_thickness dirX hasLabel
      .ok { slots := st.slots ++ [s], row_y := rowY, row_height := effCl, row_x := xAdv,
            max_x_used := max st.max_x_used slotRight,
            max_y_used := max st.max_y_used (rowY + effCl) }

/-- The mixed packing loop over the sorted entries. -/
def packLoop (c : Config) (lw ll : ℚ) (dirX : Bool) (ix iy : ℚ) :
    List Entry → PackState → Except LayoutError PackState
  | [], st => .ok st
  | e :: rest, st =>
    match packStep c lw ll dirX ix iy st e with
    | .error err => .error err
    | .ok st1 => packLoop c lw ll dirX ix iy rest st1

/-- `compute_mixed_layout` from src/casemk/layout.py: expand, sort by
descending area, pack first-fit row by row, and report the tracked maxima
as the total extent. -/
def computeMixedLayout (items : List MixedItem) (c : Config) :
    Except LayoutError MixedLayoutResult :=
  let lw := (c.label_size.getD (0, 0)).1
  let ll := (c.label_size.getD (0, 0)).2
  let dirX := c.label_dir == "X"
  let expanded := sortEntries (expandItems items c)
  match packLoop c lw ll dirX (innerX c) (innerY c) expanded
      { slots := [], row_y := 0, row_height := 0, row_x := 0,
        max_x_used := 0, max_y_used := 0 } with
  | .error err => .error err
  | .ok st => .ok { slots := st.slots, total_width := st.max_x_used,
                    total_length := st.max_y_used }

/-- Modelled from the spec: the claim's per-axis count formula
`max(1, floor((usable + divider) / (cell + divider)))`, to be compared with
the code's `tryLayout` (which uses Python `int` truncation). -/
def claimTryLayout (ix iy d cw cl : ℚ) : ℕ × ℕ :=
  ((max 1 ⌊(ix + d) / (cw + d)⌋).toNat, (max 1 ⌊(iy + d) / (cl + d)⌋).toNat)

/-- The orientation-selection result for given item dimensions and
configuration: `(cols, rows, cell_width, cell_length)`. -/
def gridChoice (dims : ℚ × ℚ × ℚ) (c : Config) : ℕ × ℕ × ℚ × ℚ :=
  gridChoose (innerX c) (innerY c) c.divider_thickness
    (dims.1 + c.clearance) (dims.2.1 + c.clearance)

/-- Projection of a slot to the data the sorted entries determine:
(width, length, height, label text). -/
def slotDims (s : SlotRect) : ℚ × ℚ × ℚ × Option String :=
  (s.width, s.length, s.height, s.label_text)

/-- Projection of an entry to (cell width, cell length, cell height, label). -/
def entryDims (e : Entry) : ℚ × ℚ × ℚ × Option String :=
  (e.cw, e.cl, e.ch, e.label)

/-- The X extent a placed slot contributes to `max_x_used` beyond its own
x-origin: its width, extended by the label width with no divider gap for a
right-direction label, or the wider of slot and label for a below-direction
label (this is `x_advance` minus the trailing divider, minus one more
divider in the right-label case — lines 229-231 and 250-252). -/
def slotXExtent (dirX : Bool) (s : SlotRect) : ℚ :=
  match s.label_text, s.label_width with
  | some _, some lw => if dirX then s.width + lw else max s.width lw
  | _, _ => s.width

/-- The Y extent a placed slot contributes to the row height: its
`effective_cl` (lines 198-208) reconstructed from the stored label fields. -/
def slotYExtent (d : ℚ) (dirX : Bool) (s : SlotRect) : ℚ :=
  match s.label_text, s.label_length with
  | some _, some ll => if dirX then max s.length ll else s.length + d + ll
  | _, _ => s.length

/-- Tight X bound (from 0) over slots-plus-label allowances as the packer
accounts them. -/
def bboxW (dirX : Bool) (slots : List SlotRect) : ℚ :=
  slots.foldl (fun m s => max m (s.x + slotXExtent dirX s)) 0

/-- Tight Y bound (from 0) over slots-plus-label allowances. -/
def bboxL (d : ℚ) (dirX : Bool) (slots : List SlotRect) : ℚ :=
  slots.foldl (fun m s => max m (s.y + slotYExtent d dirX s)) 0

/-- Invariant of the mixed packing loop: the tracked maxima are exactly the
bounds recomputed from the accumulated slot list, and the current row block
stays within the tracked Y maximum. -/
def packInv (c : Config) (dirX : Bool) (st : PackState) : Prop :=
  st.max_x_used = bboxW dirX st.slots ∧
  st.max_y_used = bboxL c.divider_thickness dirX st.slots ∧
  st.row_y + st.row_height ≤ st.max_y_used

/-- The label glyph-size computation of `build_base_tray`
(src/casemk/geometry.py lines 91-102): shrink the configured size to fit
85% of the label rectangle (character width approximated as 0.6 x glyph
height; extents swap when the text is rotated for a right-direction label),
then apply the 2.5 mm legibility floor.  The source's decimal literals
0.85, 0.6 and 2.5 are written as the equal rationals 17/20, 3/5 and 5/2. -/
def labelTextSize (c : Config) (labelW labelL : ℚ) (dirX : Bool) (text : String) : ℚ :=
  let nChars : ℚ := (max text.length 1 : ℕ)
  let sizeByHeight := if dirX then (labelL * (17/20)) / (nChars * (3/5)) else labelL * (17/20)
  let sizeByWidth := if dirX then labelW * (17/20) else (labelW * (17/20)) / (nChars * (3/5))
  max (min c.label_text_size (min sizeByHeight sizeByWidth)) (5/2)

/-- The rendered text (n characters at glyph size s, char width 0.6 s,
rotated 90 degrees for a right-direction label) stays within 85% of the
label rectangle on both axes. -/
def fitsWithin (labelW labelL : ℚ) (dirX : Bool) (nChars : ℕ) (s : ℚ) : Prop :=
  if dirX then s ≤ labelW * (17/20) ∧ (nChars : ℚ) * (3/5) * s ≤ labelL * (17/20)
  else (nChars : ℚ) * (3/5) * s ≤ labelW * (17/20) ∧ s ≤ labelL * (17/20)

/-- The largest glyph size satisfying `fitsWithin` (the claim's "largest
size that keeps the rendered text within 85% of the label rectangle"). -/
def largestFitSize (labelW labelL : ℚ) (dirX : Bool) (nChars : ℕ) : ℚ :=
  if dirX then min ((labelL * (17/20)) / ((nChars : ℚ) * (3/5))) (labelW * (17/20))
  else min (labelL * (17/20)) ((labelW * (17/20)) / ((nChars : ℚ) * (3/5)))

/-- Modelled from the spec: the claim's glyph-size formula — "the larger of
the configured label text size and the largest size keeping the rendered
text within 85% of the label rectangle on both axes". -/
def claimLabelTextSize (c : Config) (labelW labelL : ℚ) (dirX : Bool) (text : String) : ℚ :=
  max c.label_text_size (largestFitSize labelW labelL dirX (max text.length 1))

/-- A small valid configuration (12 x 5 footprint, 1 mm walls and dividers,
no clearance) on which the grid engine picks a swapped orientation that
overflows the usable area. -/
def cfgNarrow : Config :=
  { max_footprint := (12, 5), clearance := 0, wall_thickness := 1, divider_thickness := 1 }

/-- What `compute_grid_layout((10, 1, 1), cfgNarrow)` returns: the swapped
orientation wins (5 cells against 2), so the uniform cell is 1 wide and 10
long — 10 exceeding the usable inner length 3. -/
def resSwapOverflow : GridLayoutResult :=
  { cols := 5, rows := 1, cell_width := 1, cell_length := 10, cell_height := 1,
    slots := [{ x := 0, y := 0, width := 1, length := 10, height := 1 },
              { x := 2, y := 0, width := 1, length := 10, height := 1 },
              { x := 4, y := 0, width := 1, length := 10, height := 1 },
              { x := 6, y := 0, width := 1, length := 10, height := 1 },
              { x := 8, y := 0, width := 1, length := 10, height := 1 }],
    total_width := 9, total_length := 10 }

/-- A small valid configuration with a 5 x 8 label area, labels to the
right. -/
def cfgLabel : Config :=
  { max_footprint := (100, 50), clearance := 0, wall_thickness := 1,
    divider_thickness := 1, label_size := some (5, 8) }

/-- One labeled 10 x 8 x 4 item. -/
def itemsLabelDemo : List MixedItem :=
  [{ width := 10, length := 8, height := 4, count := 1, label := some ("A") }]

/-- What `compute_mixed_layout(itemsLabelDemo, cfgLabel)` returns: one slot
with label allowances, and `total_width = 15 = x + width + label width` —
one divider thickness short of the label rectangle's right edge `16 =
x + width + divider + label width`. -/
def resLabelDemo : MixedLayoutResult :=
  { slots := [{ x := 0, y := 0, width := 10, length := 8, height := 4,
                label_width := some 5, label_length := some 8, label_text := some ("A") }],
    total_width := 15, total_length := 8 }

/-- A 12 x 10 footprint with 1 mm walls and dividers: a 1 x 1 cell grid of
5 columns and 4 rows (capacity 20). -/
def cfgGrid54 : Config :=
  { max_footprint := (12, 10), clearance := 0, wall_thickness := 1, divider_thickness := 1 }

/-- What `compute_grid_layout((1, 1, 1), cfgGrid54, count=12)` returns:
12 of the 20 available cells, 3 rows with a short final row of 2. -/
def resGrid54 : GridLayoutResult :=
  { cols := 5, rows := 3, cell_width := 1, cell_length := 1, cell_height := 1,
    slots := [{ x := 0, y := 0, width := 1, length := 1, height := 1 },
              { x := 2, y := 0, width := 1, length := 1, height := 1 },
              { x := 4, y := 0, width := 1, length := 1, height := 1 },
              { x := 6, y := 0, width := 1, length := 1, height := 1 },
              { x := 8, y := 0, width := 1, length := 1, height := 1 },
              { x := 0, y := 2, width := 1, length := 1, height := 1 },
              { x := 2, y := 2, width := 1, length := 1, height := 1 },
              { x := 4, y := 2, width := 1, length := 1, height := 1 },
              { x := 6, y := 2, width := 1, length := 1, height := 1 },
              { x := 8, y := 2, width := 1, length := 1, height := 1 },
              { x := 0, y := 4, width := 1, length := 1, height := 1 },
              { x := 2, y := 4, width := 1, length := 1, height := 1 }],
    total_width := 9, total_length := 5 }

/-- A 7 x 4 footprint with 1 mm walls and dividers. -/
def cfgTiny : Config :=
  { max_footprint := (7, 4), clearance := 0, wall_thickness := 1, divider_thickness := 1 }

/-- What `compute_grid_layout((2, 1, 1), cfgTiny)` returns: the swapped
orientation (3 cells against 2) wins. -/
def resTiny : GridLayoutResult :=
  { cols := 3, rows := 1, cell_width := 1, cell_length := 2, cell_height := 1,
    slots := [{ x := 0, y := 0, width := 1, length := 2, height := 1 },
              { x := 2, y := 0, width := 1, length := 2, height := 1 },
              { x := 4, y := 0, width := 1, length := 2, height := 1 }],
    total_width := 5, total_length := 2 }

/-- The spec's mixed-packing example: 4 items of 30 x 20 x 15 and 2 of
40 x 30 x 20. -/
def itemsExample : List MixedItem :=
  [{ width := 30, length := 20, height := 15, count := 4 },
   { width := 40, length := 30, height := 20, count := 2 }]

/-- What `compute_mixed_layout(itemsExample, defaultConfig)` returns: the
two 40 x 30 cells (area-largest) first, then the four 30 x 20 cells, all in
one row. -/
def resExample : MixedLayoutResult :=
  { slots := [{ x := 0, y := 0, width := 83/2, length := 63/2, height := 43/2 },
              { x := 43, y := 0, width := 83/2, length := 63/2, height := 43/2 },
              { x := 86, y := 0, width := 63/2, length := 43/2, height := 33/2 },
              { x := 119, y := 0, width := 63/2, length := 43/2, height := 33/2 },
              { x := 152, y := 0, width := 63/2, length := 43/2, height := 33/2 },
              { x := 185, y := 0, width := 63/2, length := 43/2, height := 33/2 }],
    total_width := 433/2, total_length := 63/2 }

theorem vcheck_ok_iff (p : Prop) [Decidable p] (msg : String) :
    vcheck p msg = .ok () ↔ ¬ p := by
  unfold vcheck; split_ifs with h <;> simp [h]

theorem vcheck_bind_ok_iff (p : Prop) [Decidable p] (msg : String)
    (k : Unit → Except String Unit) :
    (vcheck p msg >>= k) = .ok () ↔ ¬ p ∧ k () = .ok () := by
  unfold vcheck; split_ifs with h <;> simp [h, Bind.bind, Except.bind]

/-- Evaluation of Python `int`: for `n <= q < n+1` with `q` nonnegative,
`int(q) = n`. -/
theorem pyInt_eq (q : ℚ) (n : ℤ) (h0 : 0 ≤ q) (h1 : (n : ℚ) ≤ q) (h2 : q < n + 1) :
    pyInt q = n := by
  unfold pyInt
  rw [if_pos h0]
  exact Int.floor_eq_iff.mpr ⟨h1, by exact_mod_cast h2⟩

/-- On nonnegative arguments Python `int` is the floor. -/
theorem pyInt_eq_floor (q : ℚ) (h0 : 0 ≤ q) : pyInt q = ⌊q⌋ := by
  unfold pyInt
  rw [if_pos h0]

theorem defaultConfig_validate_ok : defaultConfig.validateE = .ok () := by
  simp only [Config.validateE, vcheck_bind_ok_iff, vcheck_ok_iff, defaultConfig]
  norm_num

theorem cfgNarrow_validate_ok : cfgNarrow.validateE = .ok () := by
  simp only [Config.validateE, vcheck_bind_ok_iff, vcheck_ok_iff, cfgNarrow]
  norm_num

theorem cfgNarrow_innerX : innerX cfgNarrow = 10 := by
  norm_num [innerX, cfgNarrow, Config.max_x]

theorem cfgNarrow_innerY : innerY cfgNarrow = 3 := by
  norm_num [innerY, cfgNarrow, Config.max_y]

theorem gridChoose_narrow : gridChoose 10 3 1 10 1 = (5, 1, 1, 10) := by
  have p1 : pyInt ((10 + 1 : ℚ) / (10 + 1)) = 1 :=
    pyInt_eq _ 1 (by norm_num) (by norm_num) (by norm_num)
  have p2 : pyInt ((3 + 1 : ℚ) / (1 + 1)) = 2 :=
    pyInt_eq _ 2 (by norm_num) (by norm_num) (by norm_num)
  have p3 : pyInt ((10 + 1 : ℚ) / (1 + 1)) = 5 :=
    pyInt_eq _ 5 (by norm_num) (by norm_num) (by norm_num)
  have p4 : pyInt ((3 + 1 : ℚ) / (10 + 1)) = 0 :=
    pyInt_eq _ 0 (by norm_num) (by norm_num) (by norm_num)
  simp [gridChoose, tryLayout, p1, p2, p3, p4]

theorem grid_narrow_eval :
    computeGridLayout (10, 1, 1) cfgNarrow none = .ok resSwapOverflow := by
  have hd : cfgNarrow.divider_thickness = 1 := rfl
  have hc : cfgNarrow.clearance = 0 := rfl
  have hr5 : List.range 5 = [0, 1, 2, 3, 4] := rfl
  have hr1 : List.range 1 = [0] := rfl
  simp only [computeGridLayout, cfgNarrow_innerX, cfgNarrow_innerY, hd, hc, resSwapOverflow]
  norm_num
  rw [gridChoose_narrow]
  simp only [gridSlots, gridActualCols, colsThisRow, hr1, hr5]
  norm_num [List.flatMap]
  simp only [hr5, gridSlotAt, listMaxBy, List.flatMap_cons, List.flatMap_nil, List.map_cons,
    List.map_nil, List.foldl_cons, List.foldl_nil, List.cons_append, List.nil_append,
    SlotRect.mk.injEq]
  norm_num [max_def, gridSlotAt]

/-- C7 (amended): `Config.validate` succeeds if and only if none of the
validation invariants that are properties of the `Config` record is violated
(non-positive footprint, case-size, wall, divider, base-height, label-size,
text-size or engrave-depth values, negative clearance or corner radius,
fixed case size whose inner area is not positive, non-positive lip extent or
lip height or negative stack clearance when stackable, label direction
outside X and Y); equivalently it raises exactly when one of them is
violated.  The claim's extra condition "missing label size when labels are
requested" is not a property of the `Config` record and is not tested by
`Config.validate` (the CLI layer tests it). -/
theorem validate_error_iff (c : Config) : c.validateE = .ok () ↔ ¬ configViolated c := by
  simp only [Config.validateE, vcheck_bind_ok_iff, vcheck_ok_iff, configViolated, not_or]
  tauto

/-- C7 counterexample: with labels requested (a labeled item present) and
`label_size` absent, the claim's condition list is violated at the default
configuration, yet `Config.validate` succeeds — refuting the claimed
"if and only if" at this concrete input. -/
theorem validate_missing_label_size_counterexample :
    claimConfigViolated true defaultConfig ∧ defaultConfig.validateE = .ok () := by
  refine ⟨Or.inr ⟨rfl, by decide⟩, ?_⟩
  simp only [Config.validateE, vcheck_bind_ok_iff, vcheck_ok_iff, defaultConfig]
  norm_num

/-- C1 (code bug evidence): on valid configuration `cfgNarrow` (12 x 5
footprint, 1 mm walls) and item 10 x 1 x 1, `compute_grid_layout` returns a
layout instead of failing although every slot and the total extent exceed
the usable inner length: the oversize check tests only the un-swapped
orientation, while `max(1, ...)` lets the non-fitting swapped orientation
win the cell-count comparison. -/
theorem grid_layout_exceeds_inner_area :
    cfgNarrow.validateE = .ok () ∧
    computeGridLayout (10, 1, 1) cfgNarrow none = .ok resSwapOverflow ∧
    innerY cfgNarrow = 3 ∧
    resSwapOverflow.total_length = 10 ∧
    innerY cfgNarrow < resSwapOverflow.total_length ∧
    ∃ s ∈ resSwapOverflow.slots, innerY cfgNarrow < s.y + s.length := by
  refine ⟨cfgNarrow_validate_ok, grid_narrow_eval, cfgNarrow_innerY, rfl, ?_, ?_⟩
  · rw [cfgNarrow_innerY]
    norm_num [resSwapOverflow]
  · refine ⟨{ x := 0, y := 0, width := 1, length := 10, height := 1 }, ?_, ?_⟩
    · simp [resSwapOverflow]
    · rw [cfgNarrow_innerY]
      norm_num

/-- C3 (amended): the grid engine raises its oversize error exactly when
the un-swapped cell (item dimensions plus clearance, as given) does not fit
the inset usable area — the swapped orientation is not consulted by the
check; the error carries the requested dimensions and the configured
footprint; and item 400 x 400 x 10 against the default 350 x 300 footprint
raises the oversize error in both the grid and the mixed engines. -/
theorem grid_oversize_error_iff :
    (∀ (dims : ℚ × ℚ × ℚ) (c : Config) (count : Option ℕ),
        computeGridLayout dims c count =
          .error (.oversizeGrid dims.1 dims.2.1 dims.2.2 c.max_x c.max_y) ↔
        (dims.1 + c.clearance > innerX c ∨ dims.2.1 + c.clearance > innerY c)) ∧
    computeGridLayout (400, 400, 10) defaultConfig none =
      .error (.oversizeGrid 400 400 10 350 300) ∧
    computeMixedLayout [{ width := 400, length := 400, height := 10 }] defaultConfig =
      .error (.oversizeMixed (803/2) (803/2) 350 300) := by
  refine ⟨fun dims c count => ?_, ?_, ?_⟩
  · simp only [computeGridLayout]
    split_ifs with h
    · exact iff_of_true rfl h
    · exact iff_of_false (by simp) h
  · have hix : innerX defaultConfig = 346 := by
      norm_num [innerX, defaultConfig, Config.max_x]
    have hiy : innerY defaultConfig = 296 := by
      norm_num [innerY, defaultConfig, Config.max_y]
    have hx : defaultConfig.max_x = 350 := rfl
    have hy : defaultConfig.max_y = 300 := rfl
    have hc : defaultConfig.clearance = 3/2 := rfl
    simp only [computeGridLayout, hix, hiy, hx, hy, hc]
    norm_num
  · have hix : innerX defaultConfig = 346 := by
      norm_num [innerX, defaultConfig, Config.max_x]
    have hiy : innerY defaultConfig = 296 := by
      norm_num [innerY, defaultConfig, Config.max_y]
    have hx : defaultConfig.max_x = 350 := rfl
    have hy : defaultConfig.max_y = 300 := rfl
    have hc : defaultConfig.clearance = 3/2 := rfl
    have hd : defaultConfig.divider_thickness = 3/2 := rfl
    have hls : defaultConfig.label_size = none := rfl
    have hld : defaultConfig.label_dir = "X" := rfl
    simp only [computeMixedLayout, expandItems, sortEntries, hix, hiy, hx, hy, hc, hd, hls, hld]
    norm_num [List.flatMap, List.replicate, List.insertionSort, List.orderedInsert,
      packLoop, packStep, entryXAdvance, entryEffLen]
    exact ⟨hx, hy⟩

/-- C3 counterexample: item 2 x 4 x 1 on `cfgNarrow` (usable inner area
10 x 3) does not fit un-swapped (cell length 4 > 3) but fits with width and
length swapped (4 <= 10 and 2 <= 3); the claim says no error is raised in
that case, yet the grid engine raises the oversize error. -/
theorem grid_oversize_swapped_counterexample :
    computeGridLayout (2, 4, 1) cfgNarrow none = .error (.oversizeGrid 2 4 1 12 5) ∧
    4 + cfgNarrow.clearance ≤ innerX cfgNarrow ∧ 2 + cfgNarrow.clearance ≤ innerY cfgNarrow := by
  have hc : cfgNarrow.clearance = 0 := rfl
  have hx : cfgNarrow.max_x = 12 := rfl
  have hy : cfgNarrow.max_y = 5 := rfl
  refine ⟨?_, ?_, ?_⟩
  · simp only [computeGridLayout, cfgNarrow_innerX, cfgNarrow_innerY, hc, hx, hy]
    norm_num
  · rw [cfgNarrow_innerX, hc]; norm_num
  · rw [cfgNarrow_innerY, hc]; norm_num

/-- C9 counterexample: the claim quantifies over every item dimensions, but
a `count = 0` call still runs the oversize check first: item 400 x 400 x 10
with the (valid) default configuration raises instead of returning an empty
layout. -/
theorem grid_count_zero_oversize_counterexample :
    defaultConfig.validateE = .ok () ∧
    computeGridLayout (400, 400, 10) defaultConfig (some 0) =
      .error (.oversizeGrid 400 400 10 350 300) := by
  refine ⟨defaultConfig_validate_ok, ?_⟩
  have hix : innerX defaultConfig = 346 := by
    norm_num [innerX, defaultConfig, Config.max_x]
  have hiy : innerY defaultConfig = 296 := by
    norm_num [innerY, defaultConfig, Config.max_y]
  have hx : defaultConfig.max_x = 350 := rfl
  have hy : defaultConfig.max_y = 300 := rfl
  have hc : defaultConfig.clearance = 3/2 := rfl
  simp only [computeGridLayout, hix, hiy, hx, hy, hc]
  norm_num

theorem gridChoose_cols_pos (ix iy d cw cl : ℚ) : 0 < (gridChoose ix iy d cw cl).1 := by
  have h1 := le_max_left (1 : ℤ) (pyInt ((ix + d) / (cw + d)))
  have h2 := le_max_left (1 : ℤ) (pyInt ((ix + d) / (cl + d)))
  simp only [gridChoose, tryLayout]
  split_ifs <;> simp only [] <;> omega

/-- C9 (amended): for item dimensions whose un-swapped cell passes the
oversize check, `compute_grid_layout` with `count = 0` returns (does not
raise) an empty layout: no slots, `cols = 0`, `rows = 0`, and a reported
extent equal to the chosen orientation's cell width and length (item
dimensions plus clearance, possibly swapped) rather than the zero extent of
its empty slot list. -/
theorem grid_count_zero_empty (dims : ℚ × ℚ × ℚ) (c : Config)
    (hval : c.validateE = .ok ())
    (hfit : ¬(dims.1 + c.clearance > innerX c ∨ dims.2.1 + c.clearance > innerY c)) :
    computeGridLayout dims c (some 0) = .ok
      { cols := 0, rows := 0,
        cell_width := (gridChoose (innerX c) (innerY c) c.divider_thickness
          (dims.1 + c.clearance) (dims.2.1 + c.clearance)).2.2.1,
        cell_length := (gridChoose (innerX c) (innerY c) c.divider_thickness
          (dims.1 + c.clearance) (dims.2.1 + c.clearance)).2.2.2,
        cell_height := dims.2.2 + c.clearance, slots := [],
        total_width := (gridChoose (innerX c) (innerY c) c.divider_thickness
          (dims.1 + c.clearance) (dims.2.1 + c.clearance)).2.2.1,
        total_length := (gridChoose (innerX c) (innerY c) c.divider_thickness
          (dims.1 + c.clearance) (dims.2.1 + c.clearance)).2.2.2 } ∧
    ((gridChoose (innerX c) (innerY c) c.divider_thickness
        (dims.1 + c.clearance) (dims.2.1 + c.clearance)).2.2 =
      (dims.1 + c.clearance, dims.2.1 + c.clearance) ∨
     (gridChoose (innerX c) (innerY c) c.divider_thickness
        (dims.1 + c.clearance) (dims.2.1 + c.clearance)).2.2 =
      (dims.2.1 + c.clearance, dims.1 + c.clearance)) := by
  have hcols := gridChoose_cols_pos (innerX c) (innerY c) c.divider_thickness
    (dims.1 + c.clearance) (dims.2.1 + c.clearance)
  constructor
  · simp only [computeGridLayout]
    rw [if_neg hfit]
    have h1 : (gridChoose (innerX c) (innerY c) c.divider_thickness
        (dims.1 + c.clearance) (dims.2.1 + c.clearance)).1 *
        (gridChoose (innerX c) (innerY c) c.divider_thickness
        (dims.1 + c.clearance) (dims.2.1 + c.clearance)).2.1 ⊓ 0 = 0 := Nat.min_zero _
    have h2 : (0 + (gridChoose (innerX c) (innerY c) c.divider_thickness
        (dims.1 + c.clearance) (dims.2.1 + c.clearance)).1 - 1) /
        (gridChoose (innerX c) (innerY c) c.divider_thickness
        (dims.1 + c.clearance) (dims.2.1 + c.clearance)).1 = 0 :=
      Nat.div_eq_of_lt (by omega)
    simp only [h1, h2, gridSlots, gridActualCols, listMaxBy, List.range_zero,
      List.flatMap_nil, List.foldl_nil]
  · simp only [gridChoose]
    split_ifs <;> simp

theorem grid_count_zero_empty_witness :
    cfgNarrow.validateE = .ok () ∧
    ¬((10 : ℚ) + cfgNarrow.clearance > innerX cfgNarrow ∨
      (1 : ℚ) + cfgNarrow.clearance > innerY cfgNarrow) ∧
    computeGridLayout (10, 1, 1) cfgNarrow (some 0) = .ok
      { cols := 0, rows := 0, cell_width := 1, cell_length := 10, cell_height := 1,
        slots := [], total_width := 1, total_length := 10 } := by
  have hc : cfgNarrow.clearance = 0 := rfl
  have hfit : ¬((10 : ℚ) + cfgNarrow.clearance > innerX cfgNarrow ∨
      (1 : ℚ) + cfgNarrow.clearance > innerY cfgNarrow) := by
    rw [cfgNarrow_innerX, cfgNarrow_innerY, hc]
    norm_num
  have hd : cfgNarrow.divider_thickness = 1 := rfl
  have h := grid_count_zero_empty (10, 1, 1) cfgNarrow cfgNarrow_validate_ok hfit
  rw [cfgNarrow_innerX, cfgNarrow_innerY, hc, hd] at h
  rw [show ((10 : ℚ) + 0) = 10 from by norm_num, show ((1 : ℚ) + 0) = 1 from by norm_num] at h
  simp only [gridChoose_narrow] at h
  exact ⟨cfgNarrow_validate_ok, hfit, h.1⟩

theorem flatMap_congr {α β : Type} {l : List α} {f g : α → List β}
    (h : ∀ a ∈ l, f a = g a) : l.flatMap f = l.flatMap g := by
  induction l with
  | nil => rfl
  | cons x t ih =>
    simp only [List.flatMap_cons]
    rw [h x (by simp), ih (fun a ha => h a (by simp [ha]))]

/-- A full grid of `rows` rows of `cols` columns enumerated row-major is the
single range `rows * cols` indexed by division and remainder. -/
theorem range_flatMap_full {α : Type} (cols : ℕ) (f : ℕ → ℕ → α) (rows : ℕ) :
    (List.range rows).flatMap (fun row => (List.range cols).map (f row)) =
      (List.range (rows * cols)).map (fun i => f (i / cols) (i % cols)) := by
  induction rows with
  | zero => simp
  | succ n ih =>
    rw [List.range_succ, List.flatMap_append, ih,
      show (n + 1) * cols = n * cols + cols from by ring,
      List.range_add, List.map_append, List.map_map]
    simp only [List.flatMap_cons, List.flatMap_nil, List.append_nil]
    congr 1
    apply List.map_congr_left
    intro j hj
    have hj2 : j < cols := List.mem_range.mp hj
    simp only [Function.comp]
    rw [show n * cols + j = cols * n + j from by ring, Nat.mul_add_div (by omega),
      Nat.mul_add_mod, Nat.div_eq_of_lt hj2, Nat.mod_eq_of_lt hj2, Nat.add_zero]

/-- The row loop of the grid engine, with its short final row, enumerates
exactly `total` slots row-major: slot `i` sits in column `i % cols` of row
`i / cols`. -/
theorem gridSlots_eq_map (cols total rows : ℕ) (cw cl ch d : ℚ)
    (h1 : total ≤ rows * cols) (h2 : rows * cols < total + cols) :
    gridSlots cols total cw cl ch d rows =
      (List.range total).map (fun i => gridSlotAt cw cl ch d (i / cols) (i % cols)) := by
  rcases rows with _ | n
  · have ht : total = 0 := by omega
    subst ht
    simp [gridSlots]
  · rcases Nat.eq_zero_or_pos cols with hc0 | hc
    · subst hc0
      have ht : total = 0 := by omega
      subst ht
      simp [gridSlots, colsThisRow]
    · have hncols : n * cols < total := by
        have : (n + 1) * cols = n * cols + cols := by ring
        omega
      have hfull : ∀ row ∈ List.range n, colsThisRow cols total row = cols := by
        intro row hr
        have hrow : row < n := List.mem_range.mp hr
        unfold colsThisRow
        rw [if_pos]
        calc (row + 1) * cols ≤ n * cols := Nat.mul_le_mul_right cols hrow
        _ ≤ total := le_of_lt hncols
      have hlast : colsThisRow cols total n = total - n * cols := by
        unfold colsThisRow
        split_ifs with h
        · have he : total = (n + 1) * cols := le_antisymm h1 h
          have hx : (n + 1) * cols = n * cols + cols := by ring
          omega
        · rfl
      unfold gridSlots
      rw [List.range_succ, List.flatMap_append]
      rw [flatMap_congr (fun row hr => by rw [hfull row hr])]
      rw [range_flatMap_full cols (gridSlotAt cw cl ch d) n]
      simp only [List.flatMap_cons, List.flatMap_nil, List.append_nil]
      rw [hlast]
      have htot : total = n * cols + (total - n * cols) := by omega
      conv_rhs => rw [htot, List.range_add, List.map_append, List.map_map]
      congr 1
      apply List.map_congr_left
      intro j hj
      have hj2 : j < total - n * cols := List.mem_range.mp hj
      have hj3 : j < cols := by
        have : (n + 1) * cols = n * cols + cols := by ring
        omega
      simp only [Function.comp]
      rw [show n * cols + j = cols * n + j from by ring, Nat.mul_add_div hc,
        Nat.mul_add_mod, Nat.div_eq_of_lt hj3, Nat.mod_eq_of_lt hj3, Nat.add_zero]

theorem foldl_max_const {f : ℕ → ℕ} {v : ℕ} :
    ∀ (l : List ℕ) (a : ℕ), (∀ x ∈ l, f x = v) →
      l.foldl (fun acc x => max acc (f x)) a = if l.isEmpty then a else max a v := by
  intro l
  induction l with
  | nil => intro a h; rfl
  | cons x t ih =>
    intro a h
    simp only [List.foldl_cons, h x (by simp), List.isEmpty_cons]
    rw [ih (max a v) (fun y hy => h y (by simp [hy]))]
    rcases t with _ | ⟨z, t⟩
    · rfl
    · simp [max_assoc]

theorem gridActualCols_full (cols rows : ℕ) (h : 0 < rows) :
    gridActualCols cols (cols * rows) rows = cols := by
  unfold gridActualCols
  rw [foldl_max_const (List.range rows) 0 (fun row hr => by
    have hrow : row < rows := List.mem_range.mp hr
    unfold colsThisRow
    rw [if_pos]
    · rw [mul_comm cols rows]
      exact Nat.mul_le_mul_right cols hrow)]
  have : ¬ (List.range rows).isEmpty := by
    simp [List.isEmpty_iff, List.range_eq_nil]
    omega
  simp [this]

theorem gridChoose_rows_pos (ix iy d cw cl : ℚ) : 0 < (gridChoose ix iy d cw cl).2.1 := by
  have h1 := le_max_left (1 : ℤ) (pyInt ((iy + d) / (cl + d)))
  have h2 := le_max_left (1 : ℤ) (pyInt ((iy + d) / (cw + d)))
  simp only [gridChoose, tryLayout]
  split_ifs <;> simp only [] <;> omega

/-- C5: for every accepted grid-layout call (no count), the engine computes
per-axis counts `max(1, floor((usable + divider) / (cell + divider)))` for
the cell as-is and with width/length swapped, picks the orientation with
the larger cell-count product (ties favouring un-swapped), and the returned
`cols`/`rows`/`cell_width`/`cell_length` are exactly the winning
orientation's counts and cell dimensions. -/
theorem grid_orientation_selection (dims : ℚ × ℚ × ℚ) (c : Config) (r : GridLayoutResult)
    (h : computeGridLayout dims c none = .ok r)
    (hix : 0 ≤ innerX c + c.divider_thickness)
    (hiy : 0 ≤ innerY c + c.divider_thickness)
    (hcw : 0 < dims.1 + c.clearance + c.divider_thickness)
    (hcl : 0 < dims.2.1 + c.clearance + c.divider_thickness) :
    if (claimTryLayout (innerX c) (innerY c) c.divider_thickness
          (dims.1 + c.clearance) (dims.2.1 + c.clearance)).1 *
        (claimTryLayout (innerX c) (innerY c) c.divider_thickness
          (dims.1 + c.clearance) (dims.2.1 + c.clearance)).2 ≥
        (claimTryLayout (innerX c) (innerY c) c.divider_thickness
          (dims.2.1 + c.clearance) (dims.1 + c.clearance)).1 *
        (claimTryLayout (innerX c) (innerY c) c.divider_thickness
          (dims.2.1 + c.clearance) (dims.1 + c.clearance)).2 then
      r.cols = (claimTryLayout (innerX c) (innerY c) c.divider_thickness
          (dims.1 + c.clearance) (dims.2.1 + c.clearance)).1 ∧
      r.rows = (claimTryLayout (innerX c) (innerY c) c.divider_thickness
          (dims.1 + c.clearance) (dims.2.1 + c.clearance)).2 ∧
      r.cell_width = dims.1 + c.clearance ∧ r.cell_length = dims.2.1 + c.clearance
    else
      r.cols = (claimTryLayout (innerX c) (innerY c) c.divider_thickness
          (dims.2.1 + c.clearance) (dims.1 + c.clearance)).1 ∧
      r.rows = (claimTryLayout (innerX c) (innerY c) c.divider_thickness
          (dims.2.1 + c.clearance) (dims.1 + c.clearance)).2 ∧
      r.cell_width = dims.2.1 + c.clearance ∧ r.cell_length = dims.1 + c.clearance := by
  have hA : tryLayout (innerX c) (innerY c) c.divider_thickness
      (dims.1 + c.clearance) (dims.2.1 + c.clearance) =
      claimTryLayout (innerX c) (innerY c) c.divider_thickness
      (dims.1 + c.clearance) (dims.2.1 + c.clearance) := by
    unfold tryLayout claimTryLayout
    rw [pyInt_eq_floor _ (div_nonneg hix hcw.le), pyInt_eq_floor _ (div_nonneg hiy hcl.le)]
  have hB : tryLayout (innerX c) (innerY c) c.divider_thickness
      (dims.2.1 + c.clearance) (dims.1 + c.clearance) =
      claimTryLayout (innerX c) (innerY c) c.divider_thickness
      (dims.2.1 + c.clearance) (dims.1 + c.clearance) := by
    unfold tryLayout claimTryLayout
    rw [pyInt_eq_floor _ (div_nonneg hix hcl.le), pyInt_eq_floor _ (div_nonneg hiy hcw.le)]
  simp only [computeGridLayout] at h
  by_cases hov : dims.1 + c.clearance > innerX c ∨ dims.2.1 + c.clearance > innerY c
  · rw [if_pos hov] at h
    exact absurd h (by simp)
  · rw [if_neg hov] at h
    rw [Except.ok.injEq] at h
    subst h
    have hrows := gridChoose_rows_pos (innerX c) (innerY c) c.divider_thickness
      (dims.1 + c.clearance) (dims.2.1 + c.clearance)
    simp only [gridChoose, hA, hB] at hrows ⊢
    set A := claimTryLayout (innerX c) (innerY c) c.divider_thickness
      (dims.1 + c.clearance) (dims.2.1 + c.clearance)
    set B := claimTryLayout (innerX c) (innerY c) c.divider_thickness
      (dims.2.1 + c.clearance) (dims.1 + c.clearance)
    by_cases hcmp : A.1 * A.2 ≥ B.1 * B.2
    · simp only [if_pos hcmp] at hrows ⊢
      exact ⟨gridActualCols_full _ _ hrows, trivial, trivial, trivial⟩
    · simp only [if_neg hcmp] at hrows ⊢
      exact ⟨gridActualCols_full _ _ hrows, trivial, trivial, trivial⟩

theorem floor_eq (q : ℚ) (n : ℤ) (h1 : (n : ℚ) ≤ q) (h2 : q < n + 1) : ⌊q⌋ = n :=
  Int.floor_eq_iff.mpr ⟨h1, by exact_mod_cast h2⟩

theorem cfgTiny_innerX : innerX cfgTiny = 5 := by
  norm_num [innerX, cfgTiny, Config.max_x]

theorem cfgTiny_innerY : innerY cfgTiny = 2 := by
  norm_num [innerY, cfgTiny, Config.max_y]

theorem gridChoose_tiny : gridChoose 5 2 1 2 1 = (3, 1, 1, 2) := by
  have p1 : pyInt ((5 + 1 : ℚ) / (2 + 1)) = 2 :=
    pyInt_eq _ 2 (by norm_num) (by norm_num) (by norm_num)
  have p2 : pyInt ((2 + 1 : ℚ) / (1 + 1)) = 1 :=
    pyInt_eq _ 1 (by norm_num) (by norm_num) (by norm_num)
  have p3 : pyInt ((5 + 1 : ℚ) / (1 + 1)) = 3 :=
    pyInt_eq _ 3 (by norm_num) (by norm_num) (by norm_num)
  have p4 : pyInt ((2 + 1 : ℚ) / (2 + 1)) = 1 :=
    pyInt_eq _ 1 (by norm_num) (by norm_num) (by norm_num)
  simp [gridChoose, tryLayout, p1, p2, p3, p4]

theorem grid_tiny_eval : computeGridLayout (2, 1, 1) cfgTiny none = .ok resTiny := by
  have hd : cfgTiny.divider_thickness = 1 := rfl
  have hc : cfgTiny.clearance = 0 := rfl
  have hr3 : List.range 3 = [0, 1, 2] := rfl
  have hr1 : List.range 1 = [0] := rfl
  simp only [computeGridLayout, cfgTiny_innerX, cfgTiny_innerY, hd, hc, resTiny]
  norm_num
  rw [gridChoose_tiny]
  simp only [gridSlots, gridActualCols, colsThisRow, hr1, hr3]
  norm_num [List.flatMap]
  simp only [hr3, gridSlotAt, listMaxBy, List.flatMap_cons, List.flatMap_nil, List.map_cons,
    List.map_nil, List.foldl_cons, List.foldl_nil, List.cons_append, List.nil_append,
    SlotRect.mk.injEq]
  norm_num [max_def, gridSlotAt]

theorem grid_orientation_selection_witness :
    computeGridLayout (2, 1, 1) cfgTiny none = .ok resTiny ∧
    resTiny.cols = 3 ∧ resTiny.rows = 1 ∧ resTiny.cell_width = 1 ∧ resTiny.cell_length = 2 := by
  refine ⟨grid_tiny_eval, ?_⟩
  have hd : cfgTiny.divider_thickness = 1 := rfl
  have hc : cfgTiny.clearance = 0 := rfl
  have h := grid_orientation_selection (2, 1, 1) cfgTiny resTiny grid_tiny_eval
    (by rw [cfgTiny_innerX, hd]; norm_num) (by rw [cfgTiny_innerY, hd]; norm_num)
    (by rw [hd, hc]; norm_num) (by rw [hd, hc]; norm_num)
  rw [cfgTiny_innerX, cfgTiny_innerY, hd, hc] at h
  have e1 : claimTryLayout 5 2 1 2 1 = (2, 1) := by
    have f1 : ⌊((5 + 1 : ℚ) / (2 + 1))⌋ = 2 := floor_eq _ 2 (by norm_num) (by norm_num)
    have f2 : ⌊((2 + 1 : ℚ) / (1 + 1))⌋ = 1 := floor_eq _ 1 (by norm_num) (by norm_num)
    simp only [claimTryLayout]
    rw [f1, f2]
    decide
  have e2 : claimTryLayout 5 2 1 1 2 = (3, 1) := by
    have f1 : ⌊((5 + 1 : ℚ) / (1 + 1))⌋ = 3 := floor_eq _ 3 (by norm_num) (by norm_num)
    have f2 : ⌊((2 + 1 : ℚ) / (2 + 1))⌋ = 1 := floor_eq _ 1 (by norm_num) (by norm_num)
    simp only [claimTryLayout]
    rw [f1, f2]
    decide
  norm_num [e1, e2] at h
  exact h

/-- C6: for every successful grid-layout call with a count, the number of
slots equals `min(capacity, count)`, the reported row count is the ceiling
of that over the column count (characterised by the two inequalities, so a
short final row is permitted), and slot `i` sits row-major at column
`i % cols` of row `i / cols` with pitch cell size plus divider thickness on
each axis. -/
theorem grid_count_capping (dims : ℚ × ℚ × ℚ) (c : Config) (n : ℕ) (r : GridLayoutResult)
    (hn : 0 < n) (h : computeGridLayout dims c (some n) = .ok r) :
    r.slots.length = min ((gridChoice dims c).1 * (gridChoice dims c).2.1) n ∧
    r.rows = (min ((gridChoice dims c).1 * (gridChoice dims c).2.1) n +
      (gridChoice dims c).1 - 1) / (gridChoice dims c).1 ∧
    min ((gridChoice dims c).1 * (gridChoice dims c).2.1) n ≤ r.rows * (gridChoice dims c).1 ∧
    r.rows * (gridChoice dims c).1 <
      min ((gridChoice dims c).1 * (gridChoice dims c).2.1) n + (gridChoice dims c).1 ∧
    ∀ (i : ℕ) (hi : i < r.slots.length),
      r.slots.get ⟨i, hi⟩ = gridSlotAt r.cell_width r.cell_length r.cell_height
        c.divider_thickness (i / (gridChoice dims c).1) (i % (gridChoice dims c).1) := by
  simp only [computeGridLayout] at h
  by_cases hov : dims.1 + c.clearance > innerX c ∨ dims.2.1 + c.clearance > innerY c
  · rw [if_pos hov] at h
    exact absurd h (by simp)
  · rw [if_neg hov] at h
    rw [Except.ok.injEq] at h
    subst h
    have hcols := gridChoose_cols_pos (innerX c) (innerY c) c.divider_thickness
      (dims.1 + c.clearance) (dims.2.1 + c.clearance)
    simp only [gridChoice]
    set G := gridChoose (innerX c) (innerY c) c.divider_thickness
      (dims.1 + c.clearance) (dims.2.1 + c.clearance) with hG
    set tc := min (G.1 * G.2.1) n with htc
    set rows := (tc + G.1 - 1) / G.1 with hrowsdef
    have hdm := Nat.div_add_mod (tc + G.1 - 1) G.1
    have hm : (tc + G.1 - 1) % G.1 < G.1 := Nat.mod_lt _ hcols
    rw [← hrowsdef] at hdm
    have h1 : tc ≤ rows * G.1 := by
      rw [mul_comm]
      omega
    have h2 : rows * G.1 < tc + G.1 := by
      rw [mul_comm]
      omega
    have hslots : gridSlots G.1 tc G.2.2.1 G.2.2.2 (dims.2.2 + c.clearance)
        c.divider_thickness rows =
        (List.range tc).map (fun i => gridSlotAt G.2.2.1 G.2.2.2 (dims.2.2 + c.clearance)
          c.divider_thickness (i / G.1) (i % G.1)) :=
      gridSlots_eq_map G.1 tc rows _ _ _ _ h1 h2
    refine ⟨?_, trivial, h1, h2, ?_⟩
    · simp only [hslots, List.length_map, List.length_range]
    · intro i hi
      simp only [hslots, List.get_eq_getElem, List.getElem_map, List.getElem_range]

theorem cfg54_innerX : innerX cfgGrid54 = 10 := by
  norm_num [innerX, cfgGrid54, Config.max_x]

theorem cfg54_innerY : innerY cfgGrid54 = 8 := by
  norm_num [innerY, cfgGrid54, Config.max_y]

theorem gridChoose_54 : gridChoose 10 8 1 1 1 = (5, 4, 1, 1) := by
  have p1 : pyInt ((10 + 1 : ℚ) / (1 + 1)) = 5 :=
    pyInt_eq _ 5 (by norm_num) (by norm_num) (by norm_num)
  have p2 : pyInt ((8 + 1 : ℚ) / (1 + 1)) = 4 :=
    pyInt_eq _ 4 (by norm_num) (by norm_num) (by norm_num)
  simp [gridChoose, tryLayout, p1, p2]

theorem grid54_eval :
    computeGridLayout (1, 1, 1) cfgGrid54 (some 12) = .ok resGrid54 := by
  have hd : cfgGrid54.divider_thickness = 1 := rfl
  have hc : cfgGrid54.clearance = 0 := rfl
  simp only [computeGridLayout, cfg54_innerX, cfg54_innerY, hd, hc, resGrid54]
  norm_num
  rw [gridChoose_54]
  have eA : ((5:ℕ) * 4) ⊓ 12 = 12 := by decide
  have eA2 : ((20:ℕ)) ⊓ 12 = 12 := by decide
  have eB : ((12:ℕ) + 5 - 1) / 5 = 3 := by decide
  have hr5 : List.range 5 = [0, 1, 2, 3, 4] := rfl
  have hr3 : List.range 3 = [0, 1, 2] := rfl
  have hr2 : List.range 2 = [0, 1] := rfl
  norm_num [eA, eA2, eB]
  have hac : Casemk.gridActualCols 5 12 3 = 5 := by decide
  have hslots : gridSlots 5 12 1 1 1 1 3 =
      [{ x := 0, y := 0, width := 1, length := 1, height := 1 },
       { x := 2, y := 0, width := 1, length := 1, height := 1 },
       { x := 4, y := 0, width := 1, length := 1, height := 1 },
       { x := 6, y := 0, width := 1, length := 1, height := 1 },
       { x := 8, y := 0, width := 1, length := 1, height := 1 },
       { x := 0, y := 2, width := 1, length := 1, height := 1 },
       { x := 2, y := 2, width := 1, length := 1, height := 1 },
       { x := 4, y := 2, width := 1, length := 1, height := 1 },
       { x := 6, y := 2, width := 1, length := 1, height := 1 },
       { x := 8, y := 2, width := 1, length := 1, height := 1 },
       { x := 0, y := 4, width := 1, length := 1, height := 1 },
       { x := 2, y := 4, width := 1, length := 1, height := 1 }] := by
    simp only [gridSlots, colsThisRow, hr3, List.flatMap_cons, List.flatMap_nil]
    norm_num
    simp only [hr5, hr2, gridSlotAt, List.map_cons, List.map_nil, List.cons_append,
      List.nil_append, SlotRect.mk.injEq]
    norm_num
  rw [hslots, hac]
  simp only [listMaxBy, List.foldl_cons, List.foldl_nil]
  norm_num [max_def]


theorem grid_count_capping_witness :
    (0 < 12) ∧ computeGridLayout (1, 1, 1) cfgGrid54 (some 12) = .ok resGrid54 ∧
    resGrid54.slots.length = 12 ∧ resGrid54.rows = 3 := by
  have hgc : gridChoice (1, 1, 1) cfgGrid54 = (5, 4, 1, 1) := by
    have hd : cfgGrid54.divider_thickness = 1 := rfl
    have hc : cfgGrid54.clearance = 0 := rfl
    simp only [gridChoice, cfg54_innerX, cfg54_innerY, hd, hc]
    rw [show ((1 : ℚ) + 0) = 1 from by norm_num]
    exact gridChoose_54
  have h := grid_count_capping (1, 1, 1) cfgGrid54 12 resGrid54 (by norm_num) grid54_eval
  rw [hgc] at h
  refine ⟨by norm_num, grid54_eval, ?_, ?_⟩
  · rw [h.1]
    decide
  · rw [h.2.1]
    decide

theorem bboxW_append (dirX : Bool) (l : List SlotRect) (s : SlotRect) :
    bboxW dirX (l ++ [s]) = max (bboxW dirX l) (s.x + slotXExtent dirX s) := by
  simp [bboxW, List.foldl_append]

theorem bboxL_append (d : ℚ) (dirX : Bool) (l : List SlotRect) (s : SlotRect) :
    bboxL d dirX (l ++ [s]) = max (bboxL d dirX l) (s.y + slotYExtent d dirX s) := by
  simp [bboxL, List.foldl_append]

theorem slotXExtent_built (dirX : Bool) (lw ll d : ℚ) (e : Entry) (x y : ℚ) :
    slotXExtent dirX
        { x := x, y := y, width := e.cw, length := e.cl, height := e.ch,
          label_width := optIf e.label.isSome lw, label_length := optIf e.label.isSome ll,
          label_text := e.label } =
    entryXAdvance d lw dirX e.label.isSome e.cw - d -
      labelDividerAdjust d dirX e.label.isSome := by
  cases e.label <;> cases dirX <;>
    simp [slotXExtent, entryXAdvance, optIf, labelDividerAdjust] <;> ring

theorem slotYExtent_built (dirX : Bool) (lw ll d : ℚ) (e : Entry) (x y : ℚ) :
    slotYExtent d dirX
        { x := x, y := y, width := e.cw, length := e.cl, height := e.ch,
          label_width := optIf e.label.isSome lw, label_length := optIf e.label.isSome ll,
          label_text := e.label } =
    entryEffLen d ll dirX e.label.isSome e.cl := by
  cases e.label <;> cases dirX <;> simp [slotYExtent, entryEffLen, optIf]

theorem packStep_inv (c : Config) (lw ll : ℚ) (dirX : Bool) (ix iy : ℚ)
    (st st' : PackState) (e : Entry)
    (h : packStep c lw ll dirX ix iy st e = .ok st')
    (hinv : packInv c dirX st) : packInv c dirX st' := by
  obtain ⟨hx, hy, hr⟩ := hinv
  simp only [packStep] at h
  set xA := entryXAdvance c.divider_thickness lw dirX e.label.isSome e.cw with hxA
  set eC := entryEffLen c.divider_thickness ll dirX e.label.isSome e.cl with heC
  by_cases h1 : xA - c.divider_thickness > ix ∨ eC > iy
  · rw [if_pos h1] at h
    exact absurd h (by simp)
  · rw [if_neg h1] at h
    by_cases h2 : st.row_x + xA ≤ ix + c.divider_thickness ∧ eC ≤ iy - st.row_y
    · rw [if_pos h2, Except.ok.injEq] at h
      subst h
      refine ⟨?_, ?_, ?_⟩
      · simp only [bboxW_append, slotXExtent_built dirX lw ll c.divider_thickness e, ← hxA, hx]
        ring_nf
      · simp only [bboxL_append, slotYExtent_built dirX lw ll c.divider_thickness e, ← heC, hy]
        have hrb : st.row_y + st.row_height ≤ bboxL c.divider_thickness dirX st.slots :=
          hy ▸ hr
        rcases le_total st.row_height eC with hle | hle
        · rw [max_eq_right hle]
        · rw [max_eq_left hle, max_eq_left hrb,
            max_eq_left (le_trans (add_le_add_left hle st.row_y) hrb)]
      · exact le_max_right _ _
    · rw [if_neg h2] at h
      by_cases h3 : st.row_y + st.row_height + c.divider_thickness + eC > iy
      · rw [if_pos h3] at h
        exact absurd h (by simp)
      · rw [if_neg h3, Except.ok.injEq] at h
        subst h
        refine ⟨?_, ?_, ?_⟩
        · simp only [bboxW_append, slotXExtent_built dirX lw ll c.divider_thickness e,
            ← hxA, hx]
          ring_nf
        · simp only [bboxL_append, slotYExtent_built dirX lw ll c.divider_thickness e,
            ← heC, hy]
        · exact le_max_right _ _

theorem packLoop_inv (c : Config) (lw ll : ℚ) (dirX : Bool) (ix iy : ℚ) :
    ∀ (entries : List Entry) (st st' : PackState),
      packLoop c lw ll dirX ix iy entries st = .ok st' →
      packInv c dirX st → packInv c dirX st' := by
  intro entries
  induction entries with
  | nil =>
    intro st st' h hinv
    simp only [packLoop, Except.ok.injEq] at h
    subst h
    exact hinv
  | cons e rest ih =>
    intro st st' h hinv
    simp only [packLoop] at h
    rcases hs : packStep c lw ll dirX ix iy st e with err | st1
    · rw [hs] at h
      exact absurd h (by simp)
    · rw [hs] at h
      exact ih st1 st' h (packStep_inv c lw ll dirX ix iy st st1 e hs hinv)

theorem packStep_slots (c : Config) (lw ll : ℚ) (dirX : Bool) (ix iy : ℚ)
    (st st' : PackState) (e : Entry)
    (h : packStep c lw ll dirX ix iy st e = .ok st') :
    st'.slots.map slotDims = st.slots.map slotDims ++ [entryDims e] := by
  simp only [packStep] at h
  set xA := entryXAdvance c.divider_thickness lw dirX e.label.isSome e.cw with hxA
  set eC := entryEffLen c.divider_thickness ll dirX e.label.isSome e.cl with heC
  by_cases h1 : xA - c.divider_thickness > ix ∨ eC > iy
  · rw [if_pos h1] at h
    exact absurd h (by simp)
  · rw [if_neg h1] at h
    by_cases h2 : st.row_x + xA ≤ ix + c.divider_thickness ∧ eC ≤ iy - st.row_y
    · rw [if_pos h2, Except.ok.injEq] at h
      subst h
      simp [slotDims, entryDims]
    · rw [if_neg h2] at h
      by_cases h3 : st.row_y + st.row_height + c.divider_thickness + eC > iy
      · rw [if_pos h3] at h
        exact absurd h (by simp)
      · rw [if_neg h3, Except.ok.injEq] at h
        subst h
        simp [slotDims, entryDims]

theorem packLoop_slots (c : Config) (lw ll : ℚ) (dirX : Bool) (ix iy : ℚ) :
    ∀ (entries : List Entry) (st st' : PackState),
      packLoop c lw ll dirX ix iy entries st = .ok st' →
      st'.slots.map slotDims = st.slots.map slotDims ++ entries.map entryDims := by
  intro entries
  induction entries with
  | nil =>
    intro st st' h
    simp only [packLoop, Except.ok.injEq] at h
    subst h
    simp
  | cons e rest ih =>
    intro st st' h
    simp only [packLoop] at h
    rcases hs : packStep c lw ll dirX ix iy st e with err | st1
    · rw [hs] at h
      exact absurd h (by simp)
    · rw [hs] at h
      rw [ih st1 st' h, packStep_slots c lw ll dirX ix iy st st1 e hs]
      simp

theorem foldl_max_init (f : SlotRect → ℚ) :
    ∀ (l : List SlotRect) (a : ℚ), a ≤ l.foldl (fun m t => max m (f t)) a := by
  intro l
  induction l with
  | nil => intro a; exact le_refl a
  | cons s t ih =>
    intro a
    exact le_trans (le_max_left a (f s)) (ih (max a (f s)))

theorem foldl_max_mem (f : SlotRect → ℚ) :
    ∀ (l : List SlotRect) (a : ℚ) (s : SlotRect), s ∈ l →
      f s ≤ l.foldl (fun m t => max m (f t)) a := by
  intro l
  induction l with
  | nil => intro a s hs; exact absurd hs (by simp)
  | cons u t ih =>
    intro a s hs
    rcases List.mem_cons.mp hs with rfl | hs2
    · exact le_trans (le_max_right a (f s)) (foldl_max_init f t _)
    · exact ih _ s hs2

theorem foldl_max_attained (f : SlotRect → ℚ) :
    ∀ (l : List SlotRect) (a : ℚ),
      l.foldl (fun m t => max m (f t)) a = a ∨
      ∃ s ∈ l, l.foldl (fun m t => max m (f t)) a = f s := by
  intro l
  induction l with
  | nil => intro a; exact Or.inl rfl
  | cons u t ih =>
    intro a
    rcases ih (max a (f u)) with h | ⟨s, hs, he⟩
    · simp only [List.foldl_cons]
      rcases le_total a (f u) with hle | hle
      · right
        exact ⟨u, by simp, by rw [h, max_eq_right hle]⟩
      · left
        rw [h, max_eq_left hle]
    · right
      exact ⟨s, by simp [hs], by simpa using he⟩

theorem listMaxBy_bound (f : SlotRect → ℚ) (dflt : ℚ) (L : List SlotRect) (hne : L ≠ []) :
    (∀ s ∈ L, f s ≤ listMaxBy f dflt L) ∧ ∃ s ∈ L, f s = listMaxBy f dflt L := by
  rcases L with _ | ⟨s0, rest⟩
  · exact absurd rfl hne
  · constructor
    · intro s hs
      rcases List.mem_cons.mp hs with rfl | hs2
      · exact foldl_max_init f rest (f s)
      · exact foldl_max_mem f rest (f s0) s hs2
    · rcases foldl_max_attained f rest (f s0) with h | ⟨s, hs, he⟩
      · exact ⟨s0, by simp, h.symm⟩
      · exact ⟨s, by simp [hs], he.symm⟩

/-- C2 (amended): a mixed layout's reported `total_width`/`total_length`
equal the bounds recomputed from its own slot list, where a right-direction
label contributes exactly `label width` adjoining the slot's right edge —
one divider thickness less than the label rectangle the assembler places
(which sits a divider after the slot) — and a below-direction label
contributes `max(slot width, label width)` on X and
`slot length + divider + label length` on Y; and a grid layout's
`total_width`/`total_length` (when at least one slot is placed) are the
tight bounding box of its slots: an upper bound on every slot's extent and
attained by one of them. -/
theorem layout_total_extent_tight_bbox :
    (∀ (items : List MixedItem) (c : Config) (r : MixedLayoutResult),
        computeMixedLayout items c = .ok r →
        r.total_width = bboxW (c.label_dir == "X") r.slots ∧
        r.total_length = bboxL c.divider_thickness (c.label_dir == "X") r.slots) ∧
    (∀ (dims : ℚ × ℚ × ℚ) (c : Config) (count : Option ℕ) (r : GridLayoutResult),
        computeGridLayout dims c count = .ok r → r.slots ≠ [] →
        (∀ s ∈ r.slots, s.x + s.width ≤ r.total_width) ∧
        (∃ s ∈ r.slots, s.x + s.width = r.total_width) ∧
        (∀ s ∈ r.slots, s.y + s.length ≤ r.total_length) ∧
        (∃ s ∈ r.slots, s.y + s.length = r.total_length)) := by
  constructor
  · intro items c r h
    simp only [computeMixedLayout] at h
    rcases hp : packLoop c (c.label_size.getD (0, 0)).1 (c.label_size.getD (0, 0)).2
        (c.label_dir == "X") (innerX c) (innerY c) (sortEntries (expandItems items c))
        { slots := [], row_y := 0, row_height := 0, row_x := 0,
          max_x_used := 0, max_y_used := 0 } with err | st
    · rw [hp] at h
      exact absurd h (by simp)
    · rw [hp, Except.ok.injEq] at h
      subst h
      have hinv := packLoop_inv c (c.label_size.getD (0, 0)).1 (c.label_size.getD (0, 0)).2
        (c.label_dir == "X") (innerX c) (innerY c) (sortEntries (expandItems items c))
        { slots := [], row_y := 0, row_height := 0, row_x := 0,
          max_x_used := 0, max_y_used := 0 } st hp
        ⟨rfl, rfl, by norm_num⟩
      exact ⟨hinv.1, hinv.2.1⟩
  · intro dims c count r h hne
    simp only [computeGridLayout] at h
    by_cases hov : dims.1 + c.clearance > innerX c ∨ dims.2.1 + c.clearance > innerY c
    · rw [if_pos hov] at h
      exact absurd h (by simp)
    · rw [if_neg hov, Except.ok.injEq] at h
      subst h
      exact ⟨(listMaxBy_bound _ _ _ hne).1, (listMaxBy_bound _ _ _ hne).2,
        (listMaxBy_bound _ _ _ hne).1, (listMaxBy_bound _ _ _ hne).2⟩

theorem mixed_labelDemo_eval :
    computeMixedLayout itemsLabelDemo cfgLabel = .ok resLabelDemo := by
  have hix : innerX cfgLabel = 98 := by norm_num [innerX, cfgLabel, Config.max_x]
  have hiy : innerY cfgLabel = 48 := by norm_num [innerY, cfgLabel, Config.max_y]
  have hd : cfgLabel.divider_thickness = 1 := rfl
  have hc : cfgLabel.clearance = 0 := rfl
  have hls : cfgLabel.label_size = some (5, 8) := rfl
  have hld : (cfgLabel.label_dir == "X") = true := rfl
  simp only [computeMixedLayout, itemsLabelDemo, expandItems, sortEntries, hix, hiy, hd, hc,
    hls, hld, resLabelDemo]
  norm_num [List.flatMap, List.replicate, List.insertionSort, List.orderedInsert,
    packLoop, packStep, entryXAdvance, entryEffLen, optIf, labelDividerAdjust, max_def,
    hd, hc, hls, hld, hix, hiy]

theorem grid_narrow_count0_eval :
    computeGridLayout (10, 1, 1) cfgNarrow (some 0) = .ok
      { cols := 0, rows := 0, cell_width := 1, cell_length := 10, cell_height := 1,
        slots := [], total_width := 1, total_length := 10 } := by
  have hd : cfgNarrow.divider_thickness = 1 := rfl
  have hc : cfgNarrow.clearance = 0 := rfl
  simp only [computeGridLayout, cfgNarrow_innerX, cfgNarrow_innerY, hd, hc]
  norm_num
  rw [gridChoose_narrow]
  norm_num [gridSlots, gridActualCols, colsThisRow, listMaxBy, List.range_zero]

/-- C2 counterexample: (a) a mixed layout whose single (and so last, widest)
placed entry carries a right-direction label reports `total_width = 15 =
x + slot width + label width`, not `x + slot width + divider + label width
= 16` as the claim states; (b) a grid layout with `count = 0` reports its
cell dimensions as the extent, not the (empty) bounding box of its zero
slots — so the claimed tight-bounding-box equality fails on both engines as
stated. -/
theorem mixed_total_width_counterexample :
    computeMixedLayout itemsLabelDemo cfgLabel = .ok resLabelDemo ∧
    resLabelDemo.total_width = 15 ∧
    resLabelDemo.slots.map (fun s => s.x + s.width + cfgLabel.divider_thickness +
      (s.label_width.getD 0)) = [16] ∧
    (15 : ℚ) ≠ 16 ∧
    computeGridLayout (10, 1, 1) cfgNarrow (some 0) = .ok
      { cols := 0, rows := 0, cell_width := 1, cell_length := 10, cell_height := 1,
        slots := [], total_width := 1, total_length := 10 } ∧
    (1 : ℚ) ≠ 0 := by
  refine ⟨mixed_labelDemo_eval, rfl, ?_, by norm_num, grid_narrow_count0_eval, by norm_num⟩
  have hd : cfgLabel.divider_thickness = 1 := rfl
  simp [resLabelDemo, hd]
  norm_num

theorem layout_total_extent_tight_bbox_witness :
    computeMixedLayout itemsLabelDemo cfgLabel = .ok resLabelDemo ∧
    resLabelDemo.total_width = bboxW (cfgLabel.label_dir == "X") resLabelDemo.slots ∧
    resLabelDemo.total_length =
      bboxL cfgLabel.divider_thickness (cfgLabel.label_dir == "X") resLabelDemo.slots ∧
    computeGridLayout (2, 1, 1) cfgTiny none = .ok resTiny ∧
    resTiny.slots ≠ [] ∧
    (∃ s ∈ resTiny.slots, s.x + s.width = resTiny.total_width) := by
  have hm := layout_total_extent_tight_bbox.1 itemsLabelDemo cfgLabel resLabelDemo
    mixed_labelDemo_eval
  have hg := layout_total_extent_tight_bbox.2 (2, 1, 1) cfgTiny none resTiny
    grid_tiny_eval (by simp [resTiny])
  exact ⟨mixed_labelDemo_eval, hm.1, hm.2, grid_tiny_eval, by simp [resTiny], hg.2.1⟩

theorem filter_orderedInsert_eq (A : ℚ) (a : Entry) (l : List Entry) (hA : entryArea a = A) :
    (List.orderedInsert entGE a l).filter (fun e => entryArea e == A) =
      a :: l.filter (fun e => entryArea e == A) := by
  induction l with
  | nil => simp [List.orderedInsert, hA]
  | cons b t ih =>
    by_cases hb : entGE a b
    · simp [List.orderedInsert, if_pos hb, hA]
    · have hbA : ¬ entryArea b = A := by
        simp only [entGE, not_le] at hb
        rw [← hA]
        exact ne_of_gt hb
      simp [List.orderedInsert, if_neg hb, hbA, ih]

theorem filter_orderedInsert_ne (A : ℚ) (a : Entry) (l : List Entry) (hA : ¬ entryArea a = A) :
    (List.orderedInsert entGE a l).filter (fun e => entryArea e == A) =
      l.filter (fun e => entryArea e == A) := by
  induction l with
  | nil => simp [List.orderedInsert, hA]
  | cons b t ih =>
    by_cases hb : entGE a b
    · simp [List.orderedInsert, if_pos hb, hA]
    · simp [List.orderedInsert, if_neg hb, List.filter_cons, ih]

theorem sortEntries_filter (l : List Entry) (A : ℚ) :
    (sortEntries l).filter (fun e => entryArea e == A) =
      l.filter (fun e => entryArea e == A) := by
  induction l with
  | nil => rfl
  | cons a t ih =>
    show (List.orderedInsert entGE a (sortEntries t)).filter (fun e => entryArea e == A) = _
    by_cases ha : entryArea a = A
    · rw [filter_orderedInsert_eq A a _ ha, ih]
      simp [ha]
    · rw [filter_orderedInsert_ne A a _ ha, ih]
      simp [ha]

theorem replicate_four {α : Type} (e : α) : List.replicate 4 e = [e, e, e, e] := rfl

theorem replicate_two {α : Type} (e : α) : List.replicate 2 e = [e, e] := rfl

theorem mixed_example_eval :
    computeMixedLayout itemsExample defaultConfig = .ok resExample := by
  have hix : innerX defaultConfig = 346 := by norm_num [innerX, defaultConfig, Config.max_x]
  have hiy : innerY defaultConfig = 296 := by norm_num [innerY, defaultConfig, Config.max_y]
  have hd : defaultConfig.divider_thickness = 3/2 := rfl
  have hc : defaultConfig.clearance = 3/2 := rfl
  have hls : defaultConfig.label_size = none := rfl
  have hld : (defaultConfig.label_dir == "X") = true := rfl
  simp only [computeMixedLayout, itemsExample, expandItems, sortEntries, hix, hiy, hd, hc,
    hls, hld, resExample]
  norm_num [List.flatMap, replicate_four, replicate_two, List.insertionSort,
    List.orderedInsert, entGE, entryArea, packLoop, packStep, entryXAdvance, entryEffLen,
    optIf, labelDividerAdjust, max_def, hd, hc, hls, hld, hix, hiy]

/-- C8: the mixed engine expands items to clearance-padded cell entries,
sorts them by descending cell area with a stable sort (entries of equal
area keep their relative input order: filtering any fixed area out of the
sorted list gives exactly the input's entries of that area, in order), and
the returned slots carry the sorted entries' data in that order; on the
spec's example the two 40 x 30 cells precede the four 30 x 20 cells. -/
theorem mixed_sort_stable_and_order :
    (∀ (items : List MixedItem) (c : Config) (r : MixedLayoutResult),
        computeMixedLayout items c = .ok r →
        r.slots.map slotDims = (sortEntries (expandItems items c)).map entryDims) ∧
    (∀ l : List Entry, List.Sorted entGE (sortEntries l)) ∧
    (∀ (l : List Entry) (A : ℚ),
        (sortEntries l).filter (fun e => entryArea e == A) =
          l.filter (fun e => entryArea e == A)) ∧
    computeMixedLayout itemsExample defaultConfig = .ok resExample ∧
    resExample.slots.map (fun s => (s.width, s.length)) =
      [(83/2, 63/2), (83/2, 63/2), (63/2, 43/2), (63/2, 43/2), (63/2, 43/2), (63/2, 43/2)] := by
  refine ⟨?_, ?_, sortEntries_filter, mixed_example_eval, ?_⟩
  · intro items c r h
    simp only [computeMixedLayout] at h
    rcases hp : packLoop c (c.label_size.getD (0, 0)).1 (c.label_size.getD (0, 0)).2
        (c.label_dir == "X") (innerX c) (innerY c) (sortEntries (expandItems items c))
        { slots := [], row_y := 0, row_height := 0, row_x := 0,
          max_x_used := 0, max_y_used := 0 } with err | st
    · rw [hp] at h
      exact absurd h (by simp)
    · rw [hp, Except.ok.injEq] at h
      subst h
      have hs := packLoop_slots c (c.label_size.getD (0, 0)).1 (c.label_size.getD (0, 0)).2
        (c.label_dir == "X") (innerX c) (innerY c) (sortEntries (expandItems items c))
        { slots := [], row_y := 0, row_height := 0, row_x := 0,
          max_x_used := 0, max_y_used := 0 } st hp
      simpa using hs
  · intro l
    exact List.sorted_insertionSort entGE l
  · simp [resExample]

theorem mixed_sort_stable_and_order_witness :
    computeMixedLayout itemsExample defaultConfig = .ok resExample ∧
    resExample.slots.map slotDims =
      (sortEntries (expandItems itemsExample defaultConfig)).map entryDims :=
  ⟨mixed_example_eval,
    mixed_sort_stable_and_order.1 itemsExample defaultConfig resExample mixed_example_eval⟩

/-- C10: an empty item list — or one whose counts are all zero — expands to
no entries, so the mixed engine returns successfully with no slots and zero
total extent; no error is raised. -/
theorem mixed_empty_items (c : Config) (items : List MixedItem)
    (h : ∀ it ∈ items, it.count = 0) :
    computeMixedLayout [] c = .ok { slots := [], total_width := 0, total_length := 0 } ∧
    computeMixedLayout items c = .ok { slots := [], total_width := 0, total_length := 0 } := by
  have hexp : expandItems items c = [] := by
    unfold expandItems
    induction items with
    | nil => rfl
    | cons it t ih =>
      rw [List.flatMap_cons, h it (by simp), ih (fun x hx => h x (by simp [hx]))]
      rfl
  constructor
  · simp [computeMixedLayout, expandItems, sortEntries, packLoop]
  · simp [computeMixedLayout, hexp, sortEntries, packLoop]

theorem mixed_empty_items_witness :
    (∀ it ∈ [({ width := 5, length := 4, height := 3, count := 0 } : MixedItem)],
      it.count = 0) ∧
    computeMixedLayout [] defaultConfig =
      .ok { slots := [], total_width := 0, total_length := 0 } ∧
    computeMixedLayout [{ width := 5, length := 4, height := 3, count := 0 }] defaultConfig =
      .ok { slots := [], total_width := 0, total_length := 0 } := by
  have hmem : ∀ it ∈ [({ width := 5, length := 4, height := 3, count := 0 } : MixedItem)],
      it.count = 0 := by
    intro it hit
    rw [List.mem_singleton] at hit
    subst hit
    rfl
  have h := mixed_empty_items defaultConfig
    [{ width := 5, length := 4, height := 3, count := 0 }] hmem
  exact ⟨hmem, h.1, h.2⟩

/-- C4 counterexample: for a 12 x 18 label with a one-character text under
the default configuration (configured size 4), the largest size fitting 85%
of the rectangle is 10.2 mm, so the claim's "larger of configured and
largest-fit" formula gives 10.2 — but the code takes the smaller
(shrink-to-fit) and engraves at 4 mm. -/
theorem label_text_size_counterexample :
    labelTextSize defaultConfig 12 18 true ("A") = 4 ∧
    claimLabelTextSize defaultConfig 12 18 true ("A") = 51/5 ∧
    (4 : ℚ) ≠ 51/5 := by
  have hlen : ("A" : String).length = 1 := rfl
  have hts : defaultConfig.label_text_size = 4 := rfl
  refine ⟨?_, ?_, by norm_num⟩
  · simp only [labelTextSize, hlen, hts]
    norm_num [min_def, max_def]
  · simp only [claimLabelTextSize, largestFitSize, hlen, hts]
    norm_num [min_def, max_def]

/-- C4 (amended): the engraved glyph size equals the larger of the 2.5 mm
legibility floor and the smaller of the configured label text size and the
largest size that keeps the rendered text within 85% of the label rectangle
on both axes (character width approximated as 0.6 x glyph height, extents
swapped when the text is rotated for a right-direction label); `largestFitSize`
is indeed the largest fitting size: a glyph size fits within 85% of the
rectangle on both axes exactly when it is at most `largestFitSize`. -/
theorem label_text_size_amended (c : Config) (lW lL : ℚ) (dirX : Bool) (text : String) :
    labelTextSize c lW lL dirX text =
      max (min c.label_text_size (largestFitSize lW lL dirX (max text.length 1))) (5/2) ∧
    (5/2 : ℚ) ≤ labelTextSize c lW lL dirX text ∧
    ∀ s : ℚ, fitsWithin lW lL dirX (max text.length 1) s ↔
      s ≤ largestFitSize lW lL dirX (max text.length 1) := by
  have hn : (1 : ℚ) ≤ ((max text.length 1 : ℕ) : ℚ) := by
    exact_mod_cast le_max_right text.length 1
  have hpos : 0 < ((max text.length 1 : ℕ) : ℚ) * (3/5) := by
    nlinarith
  have hdiv : ∀ b s : ℚ,
      (((max text.length 1 : ℕ) : ℚ) * (3/5) * s ≤ b ↔
        s ≤ b / (((max text.length 1 : ℕ) : ℚ) * (3/5))) := by
    intro b s
    rw [le_div_iff hpos, mul_comm]
  refine ⟨?_, ?_, ?_⟩
  · cases dirX <;> simp [labelTextSize, largestFitSize]
  · simp only [labelTextSize]
    refine le_trans (by norm_num) (le_max_right _ _)
  · intro s
    cases dirX
    · have hpos2 : 0 < ((text.length : ℚ) ⊔ 1) * (3/5) := by
        have h1 := le_max_right ((text.length : ℚ)) 1
        nlinarith
      have hdiv2 : ∀ b s : ℚ, (((text.length : ℚ) ⊔ 1) * (3/5) * s ≤ b ↔
          s ≤ b / (((text.length : ℚ) ⊔ 1) * (3/5))) := by
        intro b s
        rw [le_div_iff hpos2, mul_comm]
      simp [fitsWithin, largestFitSize, hdiv2, le_min_iff]
      tauto
    · have hpos2 : 0 < ((text.length : ℚ) ⊔ 1) * (3/5) := by
        have h1 := le_max_right ((text.length : ℚ)) 1
        nlinarith
      have hdiv2 : ∀ b s : ℚ, (((text.length : ℚ) ⊔ 1) * (3/5) * s ≤ b ↔
          s ≤ b / (((text.length : ℚ) ⊔ 1) * (3/5))) := by
        intro b s
        rw [le_div_iff hpos2, mul_comm]
      simp [fitsWithin, largestFitSize, hdiv2, le_min_iff]
      tauto

end Casemk
